import Mathlib

/-!
Verification of the flash/update orchestration utilities of the
sparkle-duck-shared repository (scripts/lib/*.mjs and the cleanup/CLI
modules).  The JavaScript functions are shallowly embedded as pure Lean
functions: external effects (subprocess exit codes, filesystem queries,
SSH round trips, console output) become explicit parameters or action
traces, and every function keeps its source name and control flow.
-/

namespace FlashUtils

/-! ## String helpers modelling the JavaScript primitives used by the code -/

/-- Models the JavaScript regular-expression test `/\d$/.test(s)` used by
`getPartitionDevice` in scripts/lib/partition-utils.mjs: true when the last
character of the string is a decimal digit. -/
def endsInDigit (s : String) : Bool :=
  match s.data.getLast? with
  | some c => c.isDigit
  | none => false

/-- Models `String.prototype.includes(pat)` from JavaScript: true when `pat`
occurs as a contiguous substring of `s`. -/
def strIncludes (s pat : String) : Bool :=
  (List.range (s.data.length + 1)).any (fun i => List.isPrefixOf pat.data (s.data.drop i))

/-- The characters stripped by JavaScript `String.prototype.trim` that can
occur in terminal input (the ASCII white-space characters; the full
JavaScript definition also strips rarer Unicode spaces). -/
def isJsSpace (c : Char) : Bool :=
  c = ' ' || c = '\t' || c = '\n' || c = '\r' || c = '\x0b' || c = '\x0c'

/-- Models `String.prototype.trim`: removes leading and trailing white space. -/
def trimString (s : String) : String :=
  ⟨((s.data.dropWhile isJsSpace).reverse.dropWhile isJsSpace).reverse⟩

/-- Models `s.endsWith(suffix)` from JavaScript. -/
def endsWithStr (s suffix : String) : Bool :=
  List.isSuffixOf suffix.data s.data

/-! ## getPartitionDevice (scripts/lib/partition-utils.mjs, lines 271-282)

The source checks `!device || typeof device !== 'string'` (for a string
argument this rejects exactly the empty string, which is falsy), rejects a
non-positive or non-integral partition number, and then appends either
`p<n>` or `<n>` depending on whether the device name ends in a digit.
Errors thrown by the source become `Except.error`. -/

def getPartitionDevice (device : String) (partitionNumber : Int) : Except String String :=
  if device = "" then
    .error "device is required"
  else if partitionNumber ≤ 0 then
    .error ("Invalid partitionNumber: " ++ toString partitionNumber)
  else if endsInDigit device then
    .ok (device ++ "p" ++ toString partitionNumber)
  else
    .ok (device ++ toString partitionNumber)

/-! ## prompt (cli-utils module, lines 49-61) and flashImage
(scripts/lib/flash-utils.mjs, lines 102-200)

`prompt` resolves with `answer.trim()`: the raw operator input is trimmed
before `flashImage` ever sees it.  `flashImage` is embedded as a pure
function of the device path, the raw typed answer, the option flags, and
the exit status of the copy subprocess; its observable effect is the
result below, which records which external commands ran. -/

/-- The operator-visible result of `prompt`: the trimmed raw answer. -/
def prompt (answer : String) : String :=
  trimString answer

/-- The external commands `flashImage` can run, in order. -/
inductive FlashStep where
  | umountAll
  | bmaptoolCopy
  | ddWrite
  | sync
deriving DecidableEq

/-- Outcome of `flashImage`: the dry-run early return, the abort after a
failed confirmation (`process.exit(1)`), a completed flash, or a copy
subprocess failure (the promise rejects before the final sync). -/
inductive FlashResult where
  | dryRunPlan
  | aborted
  | completed (steps : List FlashStep)
  | writeFailed (steps : List FlashStep)
deriving DecidableEq

def flashImage (device typedAnswer : String) (dryRun skipConfirm useBmap : Bool)
    (writeExit : Nat) : FlashResult :=
  if dryRun then
    .dryRunPlan
  else if !skipConfirm && (prompt typedAnswer != device) then
    .aborted
  else
    let writeStep := if useBmap then FlashStep.bmaptoolCopy else FlashStep.ddWrite
    if writeExit = 0 then
      .completed [.umountAll, writeStep, .sync]
    else
      .writeFailed [.umountAll, writeStep]

/-- The external commands a `flashImage` call actually executed. -/
def performedSteps : FlashResult → List FlashStep
  | .dryRunPlan => []
  | .aborted => []
  | .completed steps => steps
  | .writeFailed steps => steps

/-- True when the destructive raw write to the device was performed. -/
def writesDevice (r : FlashResult) : Bool :=
  (performedSteps r).any (fun s => s = .bmaptoolCopy || s = .ddWrite)

/-! ## createCleanupManager (resource cleanup module, lines 14-159)

The manager closes over a `resources` record (one optional slot per kind)
and an `inCriticalSection` flag.  The closure state is embedded as
`ManagerState`; the console output, subprocess invocations and
`process.exit` calls of `emergencyCleanup` and `cleanup` are embedded as an
explicit action trace returned next to the (unchanged) state. -/

/-- The `resources` record of the cleanup manager: at most one tracked loop
device, mount point and temporary directory. -/
structure Resources where
  loop : Option String
  mount : Option String
  tempdir : Option String
deriving DecidableEq

/-- Closure state of a cleanup manager instance. -/
structure ManagerState where
  resources : Resources
  inCriticalSection : Bool
deriving DecidableEq

/-- Observable actions of the cleanup manager: console notices and the
external commands and process exit it can trigger. -/
inductive CleanupAction where
  | printCannotInterrupt
  | warnCannotCleanup
  | printCleaningNotice
  | umountResource (mount : String)
  | detachLoop (loop : String)
  | removeTempdir (tempdir : String)
  | printDone
  | exitProcess (code : Nat)
deriving DecidableEq

/-- Actions that touch a tracked resource or end the process. -/
def isDestructive : CleanupAction → Bool
  | .umountResource _ => true
  | .detachLoop _ => true
  | .removeTempdir _ => true
  | .exitProcess _ => true
  | _ => false

/-- The best-effort resource commands run by both `emergencyCleanup` and
`cleanup` outside a critical section: unmount, loop detach, temp removal,
each only when the slot is tracked. -/
def resourceActions (r : Resources) : List CleanupAction :=
  (match r.mount with | some m => [CleanupAction.umountResource m] | none => []) ++
  (match r.loop with | some l => [CleanupAction.detachLoop l] | none => []) ++
  (match r.tempdir with | some d => [CleanupAction.removeTempdir d] | none => [])

/-- Models `emergencyCleanup` (the SIGINT handler): inside the critical
section it only prints the cannot-interrupt banner and returns; outside it
prints a notice, runs the resource commands and exits with status 130. -/
def emergencyCleanup (s : ManagerState) : ManagerState × List CleanupAction :=
  if s.inCriticalSection then
    (s, [.printCannotInterrupt])
  else
    (s, [.printCleaningNotice] ++ resourceActions s.resources ++
        [.printDone, .exitProcess 130])

/-- Models `cleanup(exitCode)`: inside the critical section it only warns and
returns; outside it runs the resource commands (and never exits - the
`exitCode` parameter is unused by the source body). -/
def cleanup (exitCode : Nat) (s : ManagerState) : ManagerState × List CleanupAction :=
  if s.inCriticalSection then
    (s, [.warnCannotCleanup])
  else
    (s, resourceActions s.resources)

/-- Models `trackResource(type, value)`: an invalid type string throws;
otherwise the slot for that kind is overwritten with `value`. -/
def trackResource (type : String) (value : String) (r : Resources) :
    Except String Resources :=
  if type = "loop" then .ok { r with loop := some value }
  else if type = "mount" then .ok { r with mount := some value }
  else if type = "tempdir" then .ok { r with tempdir := some value }
  else .error ("Invalid resource type: " ++ type)

/-- Models `untrackResource(type)`. -/
def untrackResource (type : String) (r : Resources) : Except String Resources :=
  if type = "loop" then .ok { r with loop := none }
  else if type = "mount" then .ok { r with mount := none }
  else if type = "tempdir" then .ok { r with tempdir := none }
  else .error ("Invalid resource type: " ++ type)

/-- The value currently tracked for a kind. -/
def getTracked (type : String) (r : Resources) : Option String :=
  if type = "loop" then r.loop
  else if type = "mount" then r.mount
  else if type = "tempdir" then r.tempdir
  else none

/-! ## verifyRemoteChecksum (remote utilities, flash-utils.mjs lines 485-499)

The remote recomputation `cd <dir> && sha256sum -c <sidecar>` is issued via
`ssh`, which wraps `runCapture`: it yields the trimmed stdout on exit
status 0 and `null` on any failure (connection error, nonzero exit - in
particular `sha256sum -c` exits nonzero on a digest mismatch).  That
observable is the `sshResult : Option String` parameter.  The source tests
`result && result.includes('OK')`; since the empty string cannot contain
`OK`, the truthiness guard only handles `null`, which the `Option` match
covers. -/

/-- Result of `verifyRemoteChecksum`: the returned boolean and whether the
checksum-verification-failed message was printed. -/
structure ChecksumResult where
  ret : Bool
  failureReported : Bool
deriving DecidableEq

def verifyRemoteChecksum (sshResult : Option String) : ChecksumResult :=
  match sshResult with
  | some out =>
      if strIncludes out "OK" then { ret := true, failureReported := false }
      else { ret := false, failureReported := true }
  | none => { ret := false, failureReported := true }

/-! ## backupDataPartition (scripts/lib/partition-utils.mjs, lines 305-352)

The subprocess outcomes (mount, rsync copy, chown) and the resulting
backup-directory listing are the environment; the function result records
the returned value, whether the backup directory was removed, that the
`finally` block always unmounts, and which message was printed. -/

structure BackupEnv where
  mountOk : Bool
  rsyncOk : Bool
  chownOk : Bool
  /-- Names in the backup directory after the copy (`readdirSync`). -/
  entries : List String
deriving DecidableEq

inductive BackupMsg where
  | emptyMsg
  | successMsg (count : Nat)
  | failMsg
deriving DecidableEq

structure BackupResult where
  ret : Option String
  removedBackupDir : Bool
  unmounted : Bool
  msg : BackupMsg
deriving DecidableEq

def backupDataPartition (env : BackupEnv) (backupDir : String) : BackupResult :=
  if !env.mountOk || !env.rsyncOk || !env.chownOk then
    { ret := none, removedBackupDir := true, unmounted := true, msg := .failMsg }
  else
    let files := env.entries.filter (fun f => f ≠ "lost+found")
    if files.length = 0 then
      { ret := none, removedBackupDir := true, unmounted := true, msg := .emptyMsg }
    else
      { ret := some backupDir, removedBackupDir := false, unmounted := true,
        msg := .successMsg files.length }

/-! ## loadConfig (scripts/lib/config-utils.mjs, lines 21-41)

The filesystem and the JSON parse are oracles: `pathExists` models
`existsSync` and `readJson` models `readFileSync` followed by `JSON.parse`,
with `none` for a read or parse throw (both are caught and become `null`).
The source validation `!config.ssh_key_path || typeof !== 'string'` rejects
a missing or non-string field and also the empty string (falsy); field
access on a non-object yields `undefined` (or throws on `null`), so every
non-object config is rejected as well. -/

/-- A parsed JSON value. -/
inductive JsonVal where
  | null
  | bool (b : Bool)
  | num (q : ℚ)
  | str (s : String)
  | arr (items : List JsonVal)
  | obj (fields : List (String × JsonVal))

/-- Field lookup in a parsed JSON object. -/
def lookupField : List (String × JsonVal) → String → Option JsonVal
  | [], _ => none
  | (k, v) :: rest, key => if k = key then some v else lookupField rest key

/-- Models JavaScript property access `config[key]` on a parsed JSON value:
defined only on objects. -/
def getField (v : JsonVal) (key : String) : Option JsonVal :=
  match v with
  | .obj fields => lookupField fields key
  | _ => none

structure FileSystem where
  /-- Models `fs.existsSync`. -/
  pathExists : String → Bool
  /-- Models `readFileSync` + `JSON.parse`; `none` when either throws. -/
  readJson : String → Option JsonVal

def loadConfig (fs : FileSystem) (configPath : String) : Option JsonVal :=
  if fs.pathExists configPath = false then none
  else
    match fs.readJson configPath with
    | none => none
    | some config =>
      match getField config "ssh_key_path" with
      | some (.str s) =>
          if s = "" then none
          else if fs.pathExists s then some config else none
      | _ => none

/-! ## growDataPartition (scripts/lib/partition-utils.mjs, lines 425-470)

The external tools are an environment of exit statuses; the result is the
trace of external steps that ran plus either the thrown error or the
success value, where the boolean records whether the already-at-maximum
("no change") message was printed (growpart exit 1).  `runAllowExitCodes`
is the source helper of the same name; the `e2fsck` step stands for the
forced check `sudo e2fsck -f -p` and `resize2fs` for the filesystem grow. -/

/-- Models `runAllowExitCodes(cmd, allowedExitCodes)` applied to a command
whose exit status is `exitCode`: status 0 always succeeds, an allowed
nonzero status is returned, any other status throws. -/
def runAllowExitCodes (exitCode : Nat) (allowedExitCodes : List Nat) :
    Except String Nat :=
  if exitCode = 0 then .ok 0
  else if exitCode ∈ allowedExitCodes then .ok exitCode
  else .error "Command failed"

/-- External steps `growDataPartition` can run, in program order. -/
inductive GrowStep where
  | umountAll
  | refreshTable
  | growpart
  | e2fsck
  | resize2fs
deriving DecidableEq

/-- Exit statuses of the external tools for one `growDataPartition` call. -/
structure GrowEnv where
  hasGrowpart : Bool
  hasE2fsck : Bool
  hasResize2fs : Bool
  growpartExit : Nat
  e2fsckExit : Nat
  resize2fsExit : Nat
deriving DecidableEq

def growDataPartition (env : GrowEnv) : List GrowStep × Except String Bool :=
  if !env.hasGrowpart then ([], .error "Missing required command: growpart.")
  else if !env.hasE2fsck then ([], .error "Missing required command: e2fsck.")
  else if !env.hasResize2fs then ([], .error "Missing required command: resize2fs.")
  else
    match runAllowExitCodes env.growpartExit [0, 1] with
    | .error e => ([.umountAll, .refreshTable, .growpart], .error e)
    | .ok growExit =>
      match runAllowExitCodes env.e2fsckExit [0, 1, 2] with
      | .error e =>
          ([.umountAll, .refreshTable, .growpart, .refreshTable, .e2fsck], .error e)
      | .ok _ =>
          if env.resize2fsExit = 0 then
            ([.umountAll, .refreshTable, .growpart, .refreshTable, .e2fsck, .resize2fs],
             .ok (growExit == 1))
          else
            ([.umountAll, .refreshTable, .growpart, .refreshTable, .e2fsck, .resize2fs],
             .error "resize2fs failed")

/-- True when the first `resize2fs` occurrence in the trace (if any) comes
after an `e2fsck` step. -/
def fsckBeforeResize : List GrowStep → Bool
  | [] => true
  | .e2fsck :: _ => true
  | .resize2fs :: _ => false
  | _ :: rest => fsckBeforeResize rest

/-! ## waitForReboot (remote utilities, flash-utils.mjs lines 377-434)

The polling loop runs while wall time is below the timeout, so the polls
that happen before the deadline form a finite list; each poll records what
`ssh(remoteTarget, 'echo ok')` observed and what `getRemoteUptime` would
return at that moment (including its -1 error value).  `finalUptime` is the
`getRemoteUptime` reading of the one last check after the loop.  The
outcome keeps the return value and the distinct console reports apart. -/

/-- One iteration of the reboot-verification polling loop. -/
structure Poll where
  /-- Whether `ssh remoteTarget (echo ok)` captured exactly `ok`. -/
  sshOk : Bool
  /-- What `getRemoteUptime` returns if queried at this iteration. -/
  uptime : ℚ
deriving DecidableEq

/-- `MAX_FRESH_UPTIME` from the source: uptime below 120 seconds counts as a
fresh boot. -/
def MAX_FRESH_UPTIME : ℚ := 120

/-- Outcome of `waitForReboot`, separating the in-loop classifications from
the after-timeout reports. -/
inductive RebootOutcome where
  /-- In-loop: back online after observed offline with a fresh uptime;
  returns true (`is back online`, `freshly rebooted`). -/
  | verified (uptime : ℚ)
  /-- In-loop: back online after observed offline but the uptime is not a
  fresh non-negative reading; returns false (`reboot may have failed`). -/
  | notRebooted (uptime : ℚ)
  /-- Final check after the loop: fresh uptime; returns true. -/
  | lateVerified (uptime : ℚ)
  /-- Timeout report with a non-negative uptime reading: prints the timeout
  warning plus `reboot did NOT happen`; returns false. -/
  | timeoutNotRebooted (uptime : ℚ)
  /-- Timeout report with a failed uptime reading; returns false. -/
  | timeoutUnreachable
deriving DecidableEq

/-- The classification after the polling deadline (maybe the reboot was too
fast to observe): one last uptime check. -/
def classifyFinal (finalUptime : ℚ) : RebootOutcome :=
  if 0 ≤ finalUptime ∧ finalUptime < MAX_FRESH_UPTIME then
    .lateVerified finalUptime
  else if 0 ≤ finalUptime then .timeoutNotRebooted finalUptime
  else .timeoutUnreachable

/-- The polling loop with its `sawOffline` flag. -/
def waitForRebootAux : List Poll → Bool → ℚ → RebootOutcome
  | [], _, finalUptime => classifyFinal finalUptime
  | p :: rest, sawOffline, finalUptime =>
    if p.sshOk = false then waitForRebootAux rest true finalUptime
    else if sawOffline then
      if 0 ≤ p.uptime ∧ p.uptime < MAX_FRESH_UPTIME then .verified p.uptime
      else .notRebooted p.uptime
    else waitForRebootAux rest sawOffline finalUptime

def waitForReboot (polls : List Poll) (finalUptime : ℚ) : RebootOutcome :=
  waitForRebootAux polls false finalUptime

/-- The boolean the source call resolves with. -/
def rebootReturnValue : RebootOutcome → Bool
  | .verified _ => true
  | .lateVerified _ => true
  | _ => false

/-- Whether the outcome is reported as a timeout. -/
def isTimeoutReport : RebootOutcome → Bool
  | .timeoutNotRebooted _ => true
  | .timeoutUnreachable => true
  | _ => false

/-! ## findLatestImage (scripts/lib/flash-utils.mjs, lines 54-78)

The directory state is the environment: whether `existsSync(imageDir)`
holds and the `readdirSync` listing.  `readdirSync` returns bare names, so
a symbolic link is listed under its own name (never with an `->` arrow);
each entry therefore carries whether it is a symbolic link - which the
source never inspects - and the outcome of `statSync(join(imageDir, f))`,
which follows symbolic links (the source comment says so) and throws when
a link is broken.  The source filters names that end with the suffix and do
not contain `->`, stats each filtered name, sorts by mtime descending
(`Array.prototype.sort` is stable, as is `List.mergeSort`), scans the
preferred names in priority order with `files.find`, and falls back to
`files[0]`.  A `statSync` throw propagates out of the function, embedded
as `Except.error`. -/

/-- One `readdirSync` entry: its name, whether the name is a symbolic link
(invisible to the source's filter), and the `statSync` result for the name,
where `none` models the throw on a broken symbolic link and `some m` the
modification time (milliseconds, a JavaScript number, embedded as ℚ) of the
stat target. -/
structure DirEntry where
  name : String
  isSymlink : Bool
  stat : Option ℚ
deriving DecidableEq

/-- One element of the source's `files` array after the stat step: a name
and the `statSync` modification time. -/
structure ImageFile where
  name : String
  mtimeMs : ℚ
deriving DecidableEq

/-- The name-only filter of the source:
`f.endsWith(suffix) && !f.includes('->')`.  It never consults
symbolic-link status. -/
def matchesName (suffix : String) (e : DirEntry) : Bool :=
  endsWithStr e.name suffix && !(strIncludes e.name "->")

/-- The stat step `.map(f => ({name, path, stat: statSync(...)}))`: stats
every filtered entry; a single throwing `statSync` aborts the whole call. -/
def statAll : List DirEntry → Option (List ImageFile)
  | [] => some []
  | e :: rest =>
    match e.stat with
    | none => none
    | some m => (statAll rest).map (fun files => ⟨e.name, m⟩ :: files)

/-- The sort order of the source comparator
`(a, b) => b.stat.mtimeMs - a.stat.mtimeMs`: modification time descending. -/
def mtimeDesc (a b : ImageFile) : Bool :=
  decide (b.mtimeMs ≤ a.mtimeMs)

/-- The preferred-name scan of the source: for each preferred name in order,
return the first sorted file with that exact name; otherwise fall back to
the head of the sorted list (`files[0] || null`). -/
def findPreferred : List String → List ImageFile → Option ImageFile
  | [], files => files.head?
  | p :: rest, files =>
    match files.find? (fun f => f.name == p) with
    | some f => some f
    | none => findPreferred rest files

def findLatestImage (dirExists : Bool) (entries : List DirEntry)
    (suffix : String) (preferredNames : List String) :
    Except String (Option ImageFile) :=
  if dirExists = false then .ok none
  else
    match statAll (entries.filter (matchesName suffix)) with
    | none => .error "ENOENT: no such file or directory"
    | some files => .ok (findPreferred preferredNames (files.mergeSort mtimeDesc))

end FlashUtils

/-! # Theorems -/

namespace FlashUtils

/-- C4 counterexample: the claim quantifies over every device path string not
ending in a digit, predicting that the partition index is appended directly;
but on the empty string (which does not end in a digit) the source throws
`device is required` instead of returning an appended path. -/
theorem getPartitionDevice_empty_device_errors :
    endsInDigit "" = false ∧
    getPartitionDevice "" 1 = .error "device is required" ∧
    getPartitionDevice "" 1 ≠ .ok ("" ++ toString (1 : Int)) := by
  refine ⟨rfl, rfl, fun h => Except.noConfusion h⟩

/-- C4 (amended to nonempty device paths): for every nonempty device path and
partition index 1-4, `getPartitionDevice` totally returns a pure result:
the path followed by the separator letter `p` and the index when the path
ends in a decimal digit, and the path with the index appended directly
otherwise. -/
theorem getPartitionDevice_spec (device : String) (n : Int)
    (hdev : device ≠ "") (h1 : 1 ≤ n) (h4 : n ≤ 4) :
    getPartitionDevice device n =
      .ok (if endsInDigit device then device ++ "p" ++ toString n
           else device ++ toString n) := by
  unfold getPartitionDevice
  rw [if_neg hdev, if_neg (by omega)]
  split <;> rfl

/-- Witness for `getPartitionDevice_spec` at the specification examples. -/
theorem getPartitionDevice_spec_witness :
    getPartitionDevice "/dev/mmcblk0" 4 = .ok "/dev/mmcblk0p4" ∧
    getPartitionDevice "/dev/sdb" 4 = .ok "/dev/sdb4" := by
  constructor
  · rw [getPartitionDevice_spec "/dev/mmcblk0" 4 (by decide) (by decide) (by decide)]
    rfl
  · rw [getPartitionDevice_spec "/dev/sdb" 4 (by decide) (by decide) (by decide)]
    rfl

/-- C1 counterexample: with confirmation enabled, typing the device path with
a trailing space differs from the device path, so the claim demands an abort
with no write; but `prompt` trims the answer before comparison, the
confirmation passes, and the destructive write is performed. -/
theorem flashImage_trailing_space_writes :
    ("/dev/sdb " : String) ≠ "/dev/sdb" ∧
    writesDevice (flashImage "/dev/sdb" "/dev/sdb " false false false 0) = true := by
  constructor
  · decide
  · rfl

/-- C1 (amended): with confirmation enabled and dry-run off, the destructive
write is performed exactly when the typed string, after the trimming that
`prompt` applies to all input, equals the device path; whenever the trimmed
string differs from the device path (in particular by letter case) the
operation aborts with no external command run. -/
theorem flashImage_confirm_gate (device typedAnswer : String) (useBmap : Bool)
    (writeExit : Nat) :
    (writesDevice (flashImage device typedAnswer false false useBmap writeExit) = true ↔
      trimString typedAnswer = device) ∧
    (flashImage device typedAnswer false false useBmap writeExit = .aborted ↔
      trimString typedAnswer ≠ device) := by
  by_cases h : trimString typedAnswer = device
  · have hb : (prompt typedAnswer != device) = false := by
      simp [prompt, h]
    by_cases hw : writeExit = 0 <;>
      cases useBmap <;>
        simp [flashImage, hb, hw, writesDevice, performedSteps, h]
  · have hb : (prompt typedAnswer != device) = true := by
      simp [prompt, bne_iff_ne, h]
    simp [flashImage, hb, writesDevice, performedSteps, h]

/-- C2: while the critical-section flag is set, the SIGINT handler
`emergencyCleanup` leaves the manager state unchanged and emits only the
cannot-interrupt notice, and `cleanup(exitCode)` leaves the state unchanged
and emits only a warning: no unmount, no loop detach, no temp-directory
removal and no process exit happens in either. -/
theorem criticalSection_blocks_cleanup (s : ManagerState) (exitCode : Nat)
    (h : s.inCriticalSection = true) :
    emergencyCleanup s = (s, [.printCannotInterrupt]) ∧
    cleanup exitCode s = (s, [.warnCannotCleanup]) ∧
    (∀ a ∈ (emergencyCleanup s).2, isDestructive a = false) ∧
    (∀ a ∈ (cleanup exitCode s).2, isDestructive a = false) := by
  refine ⟨by simp [emergencyCleanup, h], by simp [cleanup, h], ?_, ?_⟩
  · intro a ha
    simp [emergencyCleanup, h] at ha
    simp [ha, isDestructive]
  · intro a ha
    simp [cleanup, h] at ha
    simp [ha, isDestructive]

/-- Witness for `criticalSection_blocks_cleanup` on a state tracking all
three resource kinds. -/
theorem criticalSection_blocks_cleanup_witness :
    emergencyCleanup ⟨⟨some "/dev/loop0", some "/mnt/x", some "/tmp/x"⟩, true⟩ =
      (⟨⟨some "/dev/loop0", some "/mnt/x", some "/tmp/x"⟩, true⟩,
       [.printCannotInterrupt]) ∧
    cleanup 130 ⟨⟨some "/dev/loop0", some "/mnt/x", some "/tmp/x"⟩, true⟩ =
      (⟨⟨some "/dev/loop0", some "/mnt/x", some "/tmp/x"⟩, true⟩,
       [.warnCannotCleanup]) :=
  ⟨(criticalSection_blocks_cleanup
      ⟨⟨some "/dev/loop0", some "/mnt/x", some "/tmp/x"⟩, true⟩ 130 rfl).1,
   (criticalSection_blocks_cleanup
      ⟨⟨some "/dev/loop0", some "/mnt/x", some "/tmp/x"⟩, true⟩ 130 rfl).2.1⟩

/-- C9: for each valid resource kind, a second `trackResource` with the same
kind and no intervening untrack raises no error and silently replaces the
tracked value: the resulting state is the same as if only the second value
had ever been tracked, so any later cleanup acts only on the most recently
tracked value, and the kind still tracks exactly one value. -/
theorem trackResource_replaces (type v1 v2 : String) (r : Resources)
    (h : type = "loop" ∨ type = "mount" ∨ type = "tempdir") :
    ∃ r1 r2 : Resources,
      trackResource type v1 r = .ok r1 ∧
      trackResource type v2 r1 = .ok r2 ∧
      trackResource type v2 r = .ok r2 ∧
      getTracked type r2 = some v2 ∧
      ∀ exitCode flag,
        cleanup exitCode ⟨r2, flag⟩ =
          cleanup exitCode ⟨(trackResource type v2 r).toOption.getD r2, flag⟩ := by
  rcases h with h | h | h <;> subst h
  · exact ⟨{ r with loop := some v1 }, { r with loop := some v2 },
      rfl, rfl, rfl, rfl, fun _ _ => rfl⟩
  · exact ⟨{ r with mount := some v1 }, { r with mount := some v2 },
      rfl, rfl, rfl, rfl, fun _ _ => rfl⟩
  · exact ⟨{ r with tempdir := some v1 }, { r with tempdir := some v2 },
      rfl, rfl, rfl, rfl, fun _ _ => rfl⟩

/-- Witness for `trackResource_replaces` at kind `mount`. -/
theorem trackResource_replaces_witness :
    ∃ r1 r2 : Resources,
      trackResource "mount" "/mnt/a" ⟨none, none, none⟩ = .ok r1 ∧
      trackResource "mount" "/mnt/b" r1 = .ok r2 ∧
      trackResource "mount" "/mnt/b" ⟨none, none, none⟩ = .ok r2 ∧
      getTracked "mount" r2 = some "/mnt/b" ∧
      ∀ exitCode flag,
        cleanup exitCode ⟨r2, flag⟩ =
          cleanup exitCode
            ⟨(trackResource "mount" "/mnt/b" ⟨none, none, none⟩).toOption.getD r2,
             flag⟩ :=
  trackResource_replaces "mount" "/mnt/a" "/mnt/b" ⟨none, none, none⟩
    (Or.inr (Or.inl rfl))

/-- C5: `verifyRemoteChecksum` returns true exactly when the remote
recomputation command succeeded and its captured output contains `OK`
(any digest mismatch or remote failure makes the capture `none`, since
`sha256sum -c` then exits nonzero); and it returns false exactly when the
failure message is printed, so a mismatch is never silently ignored. -/
theorem verifyRemoteChecksum_spec (sshResult : Option String) :
    ((verifyRemoteChecksum sshResult).ret = true ↔
      ∃ out, sshResult = some out ∧ strIncludes out "OK" = true) ∧
    ((verifyRemoteChecksum sshResult).ret = false ↔
      (verifyRemoteChecksum sshResult).failureReported = true) := by
  cases sshResult with
  | none => simp [verifyRemoteChecksum]
  | some out =>
      by_cases h : strIncludes out "OK" = true <;>
        simp [verifyRemoteChecksum, h]

/-- C6: after a successful mount, copy and ownership fix, when every entry of
the backup directory is the lost-and-found artifact, `backupDataPartition`
prints the nothing-to-back-up message, removes the backup directory,
returns null instead of a backup path, and still unmounts. -/
theorem backupDataPartition_lost_and_found (env : BackupEnv) (backupDir : String)
    (hm : env.mountOk = true) (hr : env.rsyncOk = true) (hc : env.chownOk = true)
    (hlf : ∀ f ∈ env.entries, f = "lost+found") :
    backupDataPartition env backupDir =
      { ret := none, removedBackupDir := true, unmounted := true,
        msg := .emptyMsg } := by
  have hfil : env.entries.filter (fun f => f ≠ "lost+found") = [] :=
    List.filter_eq_nil_iff.mpr (by simpa using hlf)
  simp [backupDataPartition, hm, hr, hc, hfil]
  exact hlf

/-- Witness for `backupDataPartition_lost_and_found`: a directory whose only
entry is `lost+found`. -/
theorem backupDataPartition_lost_and_found_witness :
    backupDataPartition ⟨true, true, true, ["lost+found"]⟩ "/tmp/pi-base-data-backup-x" =
      { ret := none, removedBackupDir := true, unmounted := true,
        msg := .emptyMsg } :=
  backupDataPartition_lost_and_found ⟨true, true, true, ["lost+found"]⟩
    "/tmp/pi-base-data-backup-x" rfl rfl rfl
    (by intro f hf; simpa using hf)

/-- C10: given that `existsSync` is false on the empty path (as it is in
Node), `loadConfig` returns a parsed configuration exactly when the config
file exists, it parses as JSON, the parsed value has a string-valued
`ssh_key_path` field, and the file named by that field exists; in every
other case the total function returns none. -/
theorem loadConfig_spec (fs : FileSystem) (configPath : String) (c : JsonVal)
    (hempty : fs.pathExists "" = false) :
    loadConfig fs configPath = some c ↔
      fs.pathExists configPath = true ∧ fs.readJson configPath = some c ∧
      ∃ s, getField c "ssh_key_path" = some (.str s) ∧ fs.pathExists s = true := by
  unfold loadConfig
  cases hp : fs.pathExists configPath with
  | false => simp [hp]
  | true =>
    simp only [hp, Bool.true_eq_false, if_false]
    cases hr : fs.readJson configPath with
    | none => simp
    | some config =>
      dsimp only
      constructor
      · intro h
        rcases hg : getField config "ssh_key_path" with _ | jv
        · rw [hg] at h
          exact absurd h (by simp)
        · rw [hg] at h
          cases jv with
          | str s =>
              dsimp only at h
              by_cases hs : s = ""
              · rw [if_pos hs] at h
                exact absurd h (by simp)
              · rw [if_neg hs] at h
                cases hx : fs.pathExists s with
                | false =>
                    rw [hx] at h
                    exact absurd h (by simp)
                | true =>
                    rw [hx] at h
                    simp only [if_true] at h
                    obtain rfl : config = c := by simpa using h
                    exact ⟨trivial, rfl, s, hg, hx⟩
          | null => exact absurd h (by simp)
          | bool b => exact absurd h (by simp)
          | num q => exact absurd h (by simp)
          | arr items => exact absurd h (by simp)
          | obj fields => exact absurd h (by simp)
      · rintro ⟨-, hc, s, hg, hx⟩
        obtain rfl : config = c := by simpa using hc
        rw [hg]
        dsimp only
        have hs : s ≠ "" := by
          intro hs0
          rw [hs0] at hx
          rw [hempty] at hx
          exact Bool.false_ne_true hx
        rw [if_neg hs, hx]
        simp

/-- Concrete filesystem for the `loadConfig` witness: one config file whose
`ssh_key_path` names an existing key file. -/
def witnessFS : FileSystem where
  pathExists := fun s => s == "/cfg.json" || s == "/home/key.pub"
  readJson := fun s =>
    if s = "/cfg.json" then
      some (.obj [("ssh_key_path", .str "/home/key.pub")])
    else none

/-- Witness for `loadConfig_spec`. -/
theorem loadConfig_spec_witness :
    loadConfig witnessFS "/cfg.json" =
      some (.obj [("ssh_key_path", .str "/home/key.pub")]) :=
  (loadConfig_spec witnessFS "/cfg.json"
      (.obj [("ssh_key_path", .str "/home/key.pub")]) rfl).mpr
    ⟨rfl, rfl, "/home/key.pub", rfl, rfl⟩

/-- C8: with the three required tools installed, `growDataPartition` treats
growpart exit 1 (no change needed) as success and reports the partition
already at target size; growpart exit 0 succeeds without that report; any
growpart status other than 0 or 1 raises an error; e2fsck statuses 0, 1 and
2 are tolerated, any other raises an error; a nonzero resize2fs status
raises an error; and in every run the forced consistency check precedes any
filesystem grow in the executed-step trace. -/
theorem growDataPartition_exit_codes (env : GrowEnv)
    (hg : env.hasGrowpart = true) (he : env.hasE2fsck = true)
    (hr : env.hasResize2fs = true) :
    (env.growpartExit = 1 → env.e2fsckExit ∈ [0, 1, 2] → env.resize2fsExit = 0 →
      (growDataPartition env).2 = .ok true) ∧
    (env.growpartExit = 0 → env.e2fsckExit ∈ [0, 1, 2] → env.resize2fsExit = 0 →
      (growDataPartition env).2 = .ok false) ∧
    (env.growpartExit ∉ [0, 1] →
      (growDataPartition env).2 = .error "Command failed") ∧
    (env.growpartExit ∈ [0, 1] → env.e2fsckExit ∉ [0, 1, 2] →
      (growDataPartition env).2 = .error "Command failed") ∧
    (env.growpartExit ∈ [0, 1] → env.e2fsckExit ∈ [0, 1, 2] →
      env.resize2fsExit ≠ 0 →
      (growDataPartition env).2 = .error "resize2fs failed") ∧
    fsckBeforeResize (growDataPartition env).1 = true := by
  refine ⟨?_, ?_, ?_, ?_, ?_, ?_⟩
  · intro hgp hfs hrz
    simp only [List.mem_cons, List.mem_singleton, List.not_mem_nil, or_false] at hfs
    rcases hfs with h2 | h2 | h2 <;>
      simp [growDataPartition, runAllowExitCodes, hg, he, hr, hgp, h2, hrz]
  · intro hgp hfs hrz
    simp only [List.mem_cons, List.mem_singleton, List.not_mem_nil, or_false] at hfs
    rcases hfs with h2 | h2 | h2 <;>
      simp [growDataPartition, runAllowExitCodes, hg, he, hr, hgp, h2, hrz]
  · intro hnm
    have h0 : env.growpartExit ≠ 0 := fun h => hnm (by simp [h])
    simp [growDataPartition, runAllowExitCodes, hg, he, hr, h0, hnm]
  · intro hm hnm
    have h0 : env.e2fsckExit ≠ 0 := fun h => hnm (by simp [h])
    simp only [List.mem_cons, List.mem_singleton, List.not_mem_nil, or_false] at hm
    rcases hm with h1 | h1 <;>
      simp [growDataPartition, runAllowExitCodes, hg, he, hr, h1, h0, hnm]
  · intro hm hfs hrz
    simp only [List.mem_cons, List.mem_singleton, List.not_mem_nil, or_false] at hm hfs
    rcases hm with h1 | h1 <;> rcases hfs with h2 | h2 | h2 <;>
      simp [growDataPartition, runAllowExitCodes, hg, he, hr, h1, h2, hrz]
  · simp only [growDataPartition, hg, he, hr, Bool.not_true, Bool.false_eq_true,
      if_false]
    rcases runAllowExitCodes env.growpartExit [0, 1] with e | g
    · rfl
    · rcases runAllowExitCodes env.e2fsckExit [0, 1, 2] with e | f
      · rfl
      · by_cases hz : env.resize2fsExit = 0 <;> simp [hz, fsckBeforeResize]

/-- Witness for `growDataPartition_exit_codes`: growpart reports exit 1
(already at target), e2fsck reports exit 1 (fixed), resize2fs succeeds. -/
theorem growDataPartition_exit_codes_witness :
    (growDataPartition ⟨true, true, true, 1, 1, 0⟩).2 = .ok true :=
  (growDataPartition_exit_codes ⟨true, true, true, 1, 1, 0⟩ rfl rfl rfl).1
    rfl (by simp) rfl

/-- While every poll answers, the loop keeps waiting with `sawOffline`
still unset. -/
theorem waitForRebootAux_skip_online (a rest : List Poll) (finalUptime : ℚ)
    (h : ∀ p ∈ a, p.sshOk = true) :
    waitForRebootAux (a ++ rest) false finalUptime =
      waitForRebootAux rest false finalUptime := by
  induction a with
  | nil => rfl
  | cons p a ih =>
      have hp : p.sshOk = true := h p (by simp)
      simp only [List.cons_append, waitForRebootAux, hp]
      simpa using ih (fun q hq => h q (by simp [hq]))

/-- A nonempty run of offline polls sets `sawOffline` and keeps waiting. -/
theorem waitForRebootAux_offline (b rest : List Poll) (finalUptime : ℚ)
    (sawOffline : Bool) (h : ∀ p ∈ b, p.sshOk = false) (hb : b ≠ []) :
    waitForRebootAux (b ++ rest) sawOffline finalUptime =
      waitForRebootAux rest true finalUptime := by
  induction b generalizing sawOffline with
  | nil => exact absurd rfl hb
  | cons p b ih =>
      have hp : p.sshOk = false := h p (by simp)
      simp only [List.cons_append, waitForRebootAux, hp]
      by_cases hb2 : b = []
      · subst hb2; rfl
      · exact ih true (fun q hq => h q (by simp [hq])) hb2

/-- C3: when the polling trace first shows the remote offline (after any
initial online answers) and then an SSH answer returns before the timeout,
`waitForReboot` reads the uptime at that answering poll and returns true
exactly when the reading is non-negative and below the 120-second
MAX-FRESH-UPTIME threshold; when the reading is at or above the threshold
the outcome is the distinct in-loop reboot-did-not-happen report - not a
timeout report - and the call returns false. -/
theorem waitForReboot_classification (a b rest : List Poll) (q : Poll)
    (finalUptime : ℚ) (ha : ∀ p ∈ a, p.sshOk = true)
    (hb : ∀ p ∈ b, p.sshOk = false) (hbne : b ≠ []) (hq : q.sshOk = true) :
    (waitForReboot (a ++ b ++ q :: rest) finalUptime =
        if 0 ≤ q.uptime ∧ q.uptime < MAX_FRESH_UPTIME then .verified q.uptime
        else .notRebooted q.uptime) ∧
    (rebootReturnValue (waitForReboot (a ++ b ++ q :: rest) finalUptime) = true ↔
        0 ≤ q.uptime ∧ q.uptime < MAX_FRESH_UPTIME) ∧
    (MAX_FRESH_UPTIME ≤ q.uptime →
        waitForReboot (a ++ b ++ q :: rest) finalUptime = .notRebooted q.uptime ∧
        isTimeoutReport (waitForReboot (a ++ b ++ q :: rest) finalUptime) = false) := by
  have key : waitForReboot (a ++ b ++ q :: rest) finalUptime =
      if 0 ≤ q.uptime ∧ q.uptime < MAX_FRESH_UPTIME then .verified q.uptime
      else .notRebooted q.uptime := by
    unfold waitForReboot
    rw [List.append_assoc,
      waitForRebootAux_skip_online a (b ++ q :: rest) finalUptime ha,
      waitForRebootAux_offline b (q :: rest) finalUptime false hb hbne]
    simp [waitForRebootAux, hq]
  refine ⟨key, ?_, ?_⟩
  · rw [key]
    by_cases hfresh : 0 ≤ q.uptime ∧ q.uptime < MAX_FRESH_UPTIME <;>
      simp [hfresh, rebootReturnValue]
  · intro hge
    have hnot : ¬(0 ≤ q.uptime ∧ q.uptime < MAX_FRESH_UPTIME) :=
      fun hf => absurd hge (not_le.mpr hf.2)
    rw [key, if_neg hnot]
    exact ⟨rfl, rfl⟩

/-- Witness for `waitForReboot_classification` at the specification examples:
offline once, then online with uptime 5 (verified) and with uptime 3600
(reboot did not happen, not a timeout). -/
theorem waitForReboot_classification_witness :
    waitForReboot [⟨false, 0⟩, ⟨true, 5⟩] 0 = .verified 5 ∧
    rebootReturnValue (waitForReboot [⟨false, 0⟩, ⟨true, 5⟩] 0) = true ∧
    waitForReboot [⟨false, 0⟩, ⟨true, 3600⟩] 0 = .notRebooted 3600 ∧
    isTimeoutReport (waitForReboot [⟨false, 0⟩, ⟨true, 3600⟩] 0) = false := by
  have h1 := waitForReboot_classification [] [⟨false, 0⟩] [] ⟨true, 5⟩ 0
    (by simp) (by intro p hp; simp only [List.mem_singleton] at hp; simp [hp])
    (by simp) rfl
  have h2 := waitForReboot_classification [] [⟨false, 0⟩] [] ⟨true, 3600⟩ 0
    (by simp) (by intro p hp; simp only [List.mem_singleton] at hp; simp [hp])
    (by simp) rfl
  simp only [List.nil_append, List.singleton_append] at h1 h2
  refine ⟨?_, ?_, ?_, ?_⟩
  · rw [h1.1]
    norm_num [MAX_FRESH_UPTIME]
  · exact h1.2.1.mpr (by norm_num [MAX_FRESH_UPTIME])
  · exact (h2.2.2 (by norm_num [MAX_FRESH_UPTIME])).1
  · exact (h2.2.2 (by norm_num [MAX_FRESH_UPTIME])).2

/-- With no files at all, the preferred-name scan returns none. -/
theorem findPreferred_nil (preferredNames : List String) :
    findPreferred preferredNames [] = none := by
  induction preferredNames with
  | nil => rfl
  | cons p rest ih => simp [findPreferred, ih]

/-- When no preferred name occurs among the files, the scan falls back to
the head of the (sorted) file list. -/
theorem findPreferred_fallback (preferredNames : List String)
    (files : List ImageFile)
    (h : ∀ q ∈ preferredNames, ∀ f ∈ files, f.name ≠ q) :
    findPreferred preferredNames files = files.head? := by
  induction preferredNames with
  | nil => rfl
  | cons p rest ih =>
      have hnone : files.find? (fun f => f.name == p) = none :=
        List.find?_eq_none.mpr (fun f hf => by
          simpa using h p (by simp) f hf)
      rw [findPreferred, hnone]
      exact ih (fun q hq f hf => h q (by simp [hq]) f hf)

/-- The scan returns a file named after the first preferred name that occurs
among the files. -/
theorem findPreferred_first_hit (pre : List String) (p : String)
    (post : List String) (files : List ImageFile)
    (hpre : ∀ q ∈ pre, ∀ f ∈ files, f.name ≠ q)
    (hp : ∃ f ∈ files, f.name = p) :
    ∃ f, findPreferred (pre ++ p :: post) files = some f ∧ f.name = p := by
  induction pre with
  | nil =>
      obtain ⟨f0, hf0, hname⟩ := hp
      have hsome : (files.find? (fun f => f.name == p)).isSome :=
        List.find?_isSome.mpr ⟨f0, hf0, by simp [hname]⟩
      obtain ⟨f, hf⟩ := Option.isSome_iff_exists.mp hsome
      refine ⟨f, ?_, ?_⟩
      · simp [findPreferred, hf]
      · simpa using List.find?_some hf
  | cons q pre ih =>
      have hnone : files.find? (fun f => f.name == q) = none :=
        List.find?_eq_none.mpr (fun f hf => by
          simpa using hpre q (by simp) f hf)
      rw [List.cons_append, findPreferred, hnone]
      exact ih (fun r hr f hf => hpre r (by simp [hr]) f hf)

/-- C7 counterexample: the claim restricts the matches to non-symlink files,
but the source filter is name-only (`readdirSync` names never contain an
arrow): a directory whose single suffix match is a symbolic link returns
that entry instead of the null the claim requires, because `statSync`
follows the link; and when the link is broken the call throws out of the
function rather than returning null. -/
theorem findLatestImage_symlink_included :
    (⟨"link.wic.gz", true, some 5⟩ : DirEntry).isSymlink = true ∧
    findLatestImage true [⟨"link.wic.gz", true, some 5⟩] ".wic.gz" [] =
      .ok (some ⟨"link.wic.gz", 5⟩) ∧
    findLatestImage true [⟨"broken.wic.gz", true, none⟩] ".wic.gz" [] =
      .error "ENOENT: no such file or directory" := by
  refine ⟨rfl, ?_, ?_⟩
  · have hfilter : ([⟨"link.wic.gz", true, some 5⟩] : List DirEntry).filter
        (matchesName ".wic.gz") = [⟨"link.wic.gz", true, some 5⟩] := by decide
    rw [findLatestImage]
    simp only [Bool.true_eq_false, if_false]
    rw [hfilter]
    show Except.ok (findPreferred []
        (([⟨"link.wic.gz", 5⟩] : List ImageFile).mergeSort mtimeDesc)) = _
    rw [List.mergeSort_singleton]
    rfl
  · have hfilter : ([⟨"broken.wic.gz", true, none⟩] : List DirEntry).filter
        (matchesName ".wic.gz") = [⟨"broken.wic.gz", true, none⟩] := by decide
    rw [findLatestImage]
    simp only [Bool.true_eq_false, if_false]
    rw [hfilter]
    rfl

/-- C7 (amended): the filter is by name only - symbolic links are not
excluded and `statSync` follows them, throwing out of the function on a
broken link.  `findLatestImage` returns none when the directory does not
exist or no listed name passes the suffix-and-no-arrow name filter;
propagates the `statSync` throw when some filtered entry fails to stat;
and otherwise, over the statted files: when some preferred name is present
it returns a file carrying the first such preferred name regardless of
modification times, else a file whose modification time is greatest. -/
theorem findLatestImage_spec (dirExists : Bool) (entries : List DirEntry)
    (suffix : String) (preferredNames : List String) :
    (dirExists = false →
      findLatestImage dirExists entries suffix preferredNames = .ok none) ∧
    (entries.filter (matchesName suffix) = [] →
      findLatestImage dirExists entries suffix preferredNames = .ok none) ∧
    (dirExists = true →
      statAll (entries.filter (matchesName suffix)) = none →
      findLatestImage dirExists entries suffix preferredNames =
        .error "ENOENT: no such file or directory") ∧
    (∀ files pre p post, dirExists = true →
      statAll (entries.filter (matchesName suffix)) = some files →
      preferredNames = pre ++ p :: post →
      (∀ q ∈ pre, ∀ f ∈ files, f.name ≠ q) →
      (∃ f ∈ files, f.name = p) →
      ∃ f, findLatestImage dirExists entries suffix preferredNames =
          .ok (some f) ∧ f.name = p) ∧
    (∀ files, dirExists = true →
      statAll (entries.filter (matchesName suffix)) = some files →
      (∀ q ∈ preferredNames, ∀ f ∈ files, f.name ≠ q) →
      files ≠ [] →
      ∃ f, findLatestImage dirExists entries suffix preferredNames =
          .ok (some f) ∧ f ∈ files ∧
          ∀ g ∈ files, g.mtimeMs ≤ f.mtimeMs) := by
  refine ⟨fun h => by simp [findLatestImage, h], ?_, ?_, ?_, ?_⟩
  · intro hnil
    cases dirExists with
    | false => simp [findLatestImage]
    | true =>
        rw [findLatestImage]
        simp only [Bool.true_eq_false, if_false]
        rw [hnil]
        show Except.ok
            (findPreferred preferredNames
              (([] : List ImageFile).mergeSort mtimeDesc)) =
          Except.ok none
        rw [List.mergeSort_nil, findPreferred_nil]
  · intro hdir hnone
    subst hdir
    rw [findLatestImage]
    simp only [Bool.true_eq_false, if_false]
    rw [hnone]
  · intro files pre p post hdir hstat hsplit hpre hp
    subst hdir hsplit
    rw [findLatestImage]
    simp only [Bool.true_eq_false, if_false]
    rw [hstat]
    dsimp only
    have hperm : (files.mergeSort mtimeDesc).Perm files :=
      List.mergeSort_perm files mtimeDesc
    obtain ⟨f, hfind, hname⟩ :=
      findPreferred_first_hit pre p post (files.mergeSort mtimeDesc)
        (fun q hq g hg => hpre q hq g (hperm.mem_iff.mp hg))
        (by
          obtain ⟨f0, hf0, hname0⟩ := hp
          exact ⟨f0, hperm.mem_iff.mpr hf0, hname0⟩)
    exact ⟨f, by rw [hfind], hname⟩
  · intro files hdir hstat hnone hne
    subst hdir
    rw [findLatestImage]
    simp only [Bool.true_eq_false, if_false]
    rw [hstat]
    dsimp only
    have hperm : (files.mergeSort mtimeDesc).Perm files :=
      List.mergeSort_perm files mtimeDesc
    rw [findPreferred_fallback preferredNames (files.mergeSort mtimeDesc)
      (fun q hq g hg => hnone q hq g (hperm.mem_iff.mp hg))]
    have hsne : files.mergeSort mtimeDesc ≠ [] := by
      intro h0
      have hlen := hperm.length_eq
      rw [h0] at hlen
      have h1 : files.length = 0 := by simpa using hlen.symm
      exact hne (List.length_eq_zero.mp h1)
    obtain ⟨f, tail, hcons⟩ := List.exists_cons_of_ne_nil hsne
    have hsorted : List.Pairwise (fun a b => mtimeDesc a b = true)
        (files.mergeSort mtimeDesc) :=
      List.sorted_mergeSort
        (by
          intro a b c hab hbc
          simp only [mtimeDesc, decide_eq_true_eq] at *
          exact le_trans hbc hab)
        (by
          intro a b
          simp only [mtimeDesc, Bool.or_eq_true, decide_eq_true_eq]
          exact le_total b.mtimeMs a.mtimeMs)
        files
    refine ⟨f, by rw [hcons]; rfl, ?_, ?_⟩
    · exact hperm.mem_iff.mp (hcons ▸ List.mem_cons_self f tail)
    · intro g hg
      have hgs : g ∈ files.mergeSort mtimeDesc := hperm.mem_iff.mpr hg
      rw [hcons] at hgs hsorted
      rcases List.mem_cons.mp hgs with rfl | hgt
      · exact le_refl _
      · have := (List.pairwise_cons.mp hsorted).1 g hgt
        simpa [mtimeDesc] using this

/-- Witness for `findLatestImage_spec`: two matching regular files (plus one
non-matching name), all stats succeeding, the newest match returned by the
mtime fallback. -/
theorem findLatestImage_spec_witness :
    ∃ f, findLatestImage true
        [⟨"old.wic.gz", false, some 1⟩, ⟨"new.wic.gz", false, some 2⟩,
         ⟨"other.txt", false, some 9⟩] ".wic.gz" [] = .ok (some f) ∧
      f ∈ ([⟨"old.wic.gz", 1⟩, ⟨"new.wic.gz", 2⟩] : List ImageFile) ∧
      ∀ g ∈ ([⟨"old.wic.gz", 1⟩, ⟨"new.wic.gz", 2⟩] : List ImageFile),
        g.mtimeMs ≤ f.mtimeMs :=
  (findLatestImage_spec true
      [⟨"old.wic.gz", false, some 1⟩, ⟨"new.wic.gz", false, some 2⟩,
       ⟨"other.txt", false, some 9⟩] ".wic.gz" []).2.2.2.2
    [⟨"old.wic.gz", 1⟩, ⟨"new.wic.gz", 2⟩] rfl (by rfl) (by simp) (by decide)

end FlashUtils
